import Mathlib

/-!
Shallow embedding of `update_qwen_models.py` (class `HuggingFaceModelUpdater`):
the structured-API extractor, the HTML document extractor with its three ordered
heuristics, the per-model resolver `fetch_model_update_time`, and the CSV merge
`update_csv_file`.  Python regular expressions are embedded as executable
matchers on `List Char` with Python `re` semantics (leftmost match, greedy or
lazy quantifiers as written in each pattern); character classes are the ASCII
classes Python uses on this data.  Network and clock effects are inputs:
an `ApiResponse` value stands for the structured endpoint's reply, a `Doc`
value for the BeautifulSoup view of a fetched page, and a `Date` value for
`datetime.now()`.
-/

/-- Python `\d` on the data handled here (ASCII digits). -/
def isPyDigit (c : Char) : Bool := c.isDigit

/-- Python `[A-Za-z]`. -/
def isPyAlpha (c : Char) : Bool := c.isAlpha

/-- Python `\s` (ASCII whitespace). -/
def isPySpace (c : Char) : Bool :=
  c = ' ' || c = '\t' || c = '\n' || c = '\r' || c = '\x0b' || c = '\x0c'

/-- Numeric value of a list of ASCII digit characters (most significant first). -/
def natOfDigits (cs : List Char) : Nat :=
  cs.foldl (fun acc c => acc * 10 + (c.toNat - 48)) 0

/-- `str.strip()` on both ends. -/
def pyStrip (cs : List Char) : List Char :=
  ((cs.dropWhile isPySpace).reverse.dropWhile isPySpace).reverse

/-- Gregorian leap year, as implemented by Python's `datetime`. -/
def isLeapYear (y : Nat) : Bool := y % 4 = 0 && (y % 100 ≠ 0 || y % 400 = 0)

/-- Days in a month, as validated by Python's `datetime` constructor. -/
def daysInMonth (y m : Nat) : Nat :=
  if m = 2 then (if isLeapYear y then 29 else 28)
  else if m = 4 || m = 6 || m = 9 || m = 11 then 30 else 31

/-- The dates `datetime(y, m, d)` accepts (MINYEAR 1, MAXYEAR 9999). -/
def validDate (y m d : Nat) : Bool :=
  decide (1 ≤ y) && decide (y ≤ 9999) && decide (1 ≤ m) && decide (m ≤ 12) &&
  decide (1 ≤ d) && decide (d ≤ daysInMonth y m)

/-- `dt.strftime("%Y-%m-%d")`: the canonical date text (year zero-padded to
four digits, month and day to two, over `datetime`'s year range 1..9999). -/
def formatDate (y m d : Nat) : String :=
  String.mk [Nat.digitChar (y / 1000 % 10), Nat.digitChar (y / 100 % 10),
             Nat.digitChar (y / 10 % 10), Nat.digitChar (y % 10), '-',
             Nat.digitChar (m / 10 % 10), Nat.digitChar (m % 10), '-',
             Nat.digitChar (d / 10 % 10), Nat.digitChar (d % 10)]

/-- A wall-clock date, standing for `datetime.now()`. -/
structure Date where
  year : Nat
  month : Nat
  day : Nat

/-- The anchored pattern `^\d{4}-\d{2}-\d{2}$` (`re.match` with `$`): the
canonical ten-character date shape. -/
def shapeISOList (cs : List Char) : Bool :=
  match cs with
  | [a, b, c, d, h1, e, f, h2, g, h] =>
    h1 = '-' && h2 = '-' && [a, b, c, d, e, f, g, h].all isPyDigit
  | _ => false

/-- `shapeISOList` on a string's characters. -/
def shapeISO (s : String) : Bool := shapeISOList s.data

/-- Ten-character ISO shape whose fields also form a real calendar date. -/
def isRealDateString (s : String) : Bool :=
  shapeISO s &&
  validDate (natOfDigits (s.data.take 4))
            (natOfDigits ((s.data.drop 5).take 2))
            (natOfDigits (s.data.drop 8))

/-- Case-insensitive literal match (Python `re.IGNORECASE` on ASCII):
consumes `lit` from the front of `cs`, returning the rest. -/
def matchCIlit : List Char → List Char → Option (List Char)
  | [], cs => some cs
  | _ :: _, [] => none
  | l :: ls, c :: cs => if c.toLower = l.toLower then matchCIlit ls cs else none

/-- One-or-more of a character class, greedy (`p+` where the following regex
element cannot match a `p` character, so no backtracking is required). -/
def matchPlus (p : Char → Bool) (cs : List Char) : Option (List Char) :=
  match cs with
  | c :: rest => if p c then some (rest.dropWhile p) else none
  | [] => none

/-- Exactly `n` characters of a class. -/
def matchExact (p : Char → Bool) : Nat → List Char → Option (List Char)
  | 0, cs => some cs
  | n + 1, c :: rest => if p c then matchExact p n rest else none
  | _ + 1, [] => none

/-- Greedy `\d{1,2}` whose follower is not a digit. -/
def matchDigits1or2 : List Char → Option (List Char)
  | [] => none
  | [c] => if isPyDigit c then some [] else none
  | c :: d :: rest =>
    if isPyDigit c then some (if isPyDigit d then rest else d :: rest) else none

/-- `re.search`: try the position matcher at every start position, leftmost
first. -/
def searchPos {α : Type} (f : List Char → Option α) : List Char → Option α
  | [] => f []
  | c :: rest => f (c :: rest) <|> searchPos f rest

/-- Whether `sub` occurs in `s` up to ASCII case (`re.search` truthiness of a
literal alternation branch, and `'ago' in text.lower()`). -/
def containsCI (sub s : String) : Bool :=
  (searchPos (matchCIlit sub.data) s.data).isSome

/-- `s.replace('Z', '+00:00')` on the character list (replaces every `Z`). -/
def replaceZ : List Char → List Char
  | [] => []
  | 'Z' :: rest => '+' :: '0' :: '0' :: ':' :: '0' :: '0' :: replaceZ rest
  | c :: rest => c :: replaceZ rest

/-- Two ASCII digits with a numeric upper bound (exclusive), as in the
regular expressions CPython's `_parse_isoformat_time` range-checks with. -/
def dig2lt (a b : Char) (bound : Nat) : Bool :=
  isPyDigit a && isPyDigit b && natOfDigits [a, b] < bound

/-- CPython (3.10) `_parse_hh_mm_ss_ff`: `HH[:MM[:SS[.fff[fff]]]]`, each field
range-checked, consuming the whole list. -/
def parseHMSF (cs : List Char) : Bool :=
  match cs with
  | [h1, h2] => dig2lt h1 h2 24
  | [h1, h2, ':', m1, m2] => dig2lt h1 h2 24 && dig2lt m1 m2 60
  | [h1, h2, ':', m1, m2, ':', s1, s2] =>
    dig2lt h1 h2 24 && dig2lt m1 m2 60 && dig2lt s1 s2 60
  | h1 :: h2 :: ':' :: m1 :: m2 :: ':' :: s1 :: s2 :: '.' :: fs =>
    dig2lt h1 h2 24 && dig2lt m1 m2 60 && dig2lt s1 s2 60 &&
    (fs.length = 3 || fs.length = 6) && fs.all isPyDigit
  | _ => false

/-- CPython (3.10) time-of-day tail of `datetime.fromisoformat`: a time string,
optionally split at the first `-` (else first `+`) into time and UTC-offset
parts; the offset must be `HH:MM[, :SS[.ffffff]]`-shaped (length 5, 8 or 15). -/
def isoTailOk (cs : List Char) : Bool :=
  match cs.findIdx? (fun c => c = '-') <|> cs.findIdx? (fun c => c = '+') with
  | none => parseHMSF cs
  | some i =>
    parseHMSF (cs.take i) &&
    (let tz := cs.drop (i + 1)
     (tz.length = 5 || tz.length = 8 || tz.length = 15) && parseHMSF tz)

/-- `datetime.fromisoformat` (CPython pre-3.11 grammar, which this script's
`replace('Z', '+00:00')` is written for): a `YYYY-MM-DD` date that
`datetime` accepts, either alone or followed by one separator character and a
valid time-of-day string.  Returns the date fields. -/
def parseIsoDateList (cs : List Char) : Option (Nat × Nat × Nat) :=
  match cs with
  | y1 :: y2 :: y3 :: y4 :: s1 :: m1 :: m2 :: s2 :: d1 :: d2 :: rest =>
    if s1 = '-' && s2 = '-' && [y1, y2, y3, y4, m1, m2, d1, d2].all isPyDigit then
      let y := natOfDigits [y1, y2, y3, y4]
      let m := natOfDigits [m1, m2]
      let d := natOfDigits [d1, d2]
      if validDate y m d &&
         (match rest with
          | [] => true
          | _ :: time => isoTailOk time) then
        some (y, m, d)
      else none
    else none
  | _ => none

/-- One timestamp field of the API payload:
`datetime.fromisoformat(v.replace('Z', '+00:00')).strftime("%Y-%m-%d")`,
collapsed to `none` when parsing raises (`except: pass` in the source). -/
def apiFieldDate (v : String) : Option String :=
  (parseIsoDateList (replaceZ v.data)).map (fun t => formatDate t.1 t.2.1 t.2.2)

/-- `response.json()` as seen by `extract_update_time_from_api`: either the
body fails to decode (or decodes to a value on which the field accesses
raise, which the bare `except` also collapses), or it is an object with the
optional string fields `lastModified` and `createdAt`. -/
inductive Payload where
  | parseFail
  | obj (lastModified createdAt : Option String)

/-- The structured endpoint's reply: a network failure (connection error or
timeout raising `requests.RequestException`) or a status code with a body. -/
inductive ApiResponse where
  | error
  | ok (status : Nat) (payload : Payload)

/-- `HuggingFaceModelUpdater.extract_update_time_from_api`: on status 200 try
`lastModified` then `createdAt`, formatting the first field that parses; every
failure path (network raise, non-200 status, body parse failure, both fields
missing or unparseable) returns `None`.  Totality of this definition is the
never-raises boundary of the source's outer `try/except`. -/
def extract_update_time_from_api (resp : ApiResponse) : Option String :=
  match resp with
  | .error => none
  | .ok status payload =>
    if status = 200 then
      match payload with
      | .parseFail => none
      | .obj lm ca =>
        match lm.bind apiFieldDate with
        | some d => some d
        | none => ca.bind apiFieldDate
    else none

/-- The failure modes named in the spec for the structured extractor: network
error or timeout (`.error`), JSON parse failure, non-200 status, or timestamp
fields that are missing or unparseable. -/
def apiFailureB (resp : ApiResponse) : Bool :=
  match resp with
  | .error => true
  | .ok _ .parseFail => true
  | .ok status (.obj lm ca) =>
    if status = 200 then (lm.bind apiFieldDate).isNone && (ca.bind apiFieldDate).isNone
    else true

/-- The abbreviated month names `%b` accepts (matched case-insensitively by
CPython's `_strptime`). -/
def monthAbbrevs : List String :=
  ["jan", "feb", "mar", "apr", "may", "jun", "jul", "aug", "sep", "oct", "nov", "dec"]

/-- Month number for a lowercased three-letter abbreviation. -/
def monthIndex (s : String) : Option Nat :=
  (monthAbbrevs.findIdx? (fun a => a = s)).map (fun i => i + 1)

/-- `datetime.strptime(f"{ds} {y}", "%b %d %Y").strftime("%Y-%m-%d")` for a
captured `Mon D[D]` string (three letters, whitespace, one or two digits —
shape already checked by the caller's `re.match`): `none` models the
`ValueError` raised for an unknown month abbreviation or an invalid
calendar date. -/
def strptimeBdY (y : Nat) (ds : List Char) : Option String :=
  let mon := String.mk ((ds.take 3).map Char.toLower)
  let d := natOfDigits ((ds.drop 3).dropWhile isPySpace)
  match monthIndex mon with
  | none => none
  | some m => if validDate y m d then some (formatDate y m d) else none

/-- `datetime.strptime(ds, "%b %d, %Y").strftime("%Y-%m-%d")` for a captured
`Mon D[D], YYYY` string (shape already checked by the caller's `re.match`). -/
def strptimeBdCommaY (ds : List Char) : Option String :=
  let mon := String.mk ((ds.take 3).map Char.toLower)
  let afterMon := (ds.drop 3).dropWhile isPySpace
  let d := natOfDigits (afterMon.takeWhile isPyDigit)
  let y := natOfDigits (((afterMon.dropWhile isPyDigit).drop 1).dropWhile isPySpace)
  match monthIndex mon with
  | none => none
  | some m => if validDate y m d then some (formatDate y m d) else none

/-- `datetime.strptime(ds, "%m/%d/%Y").strftime("%Y-%m-%d")` for a captured
`M[M]/D[D]/YYYY` string (shape already checked by the caller's `re.match`). -/
def strptimeMdY (ds : List Char) : Option String :=
  let m := natOfDigits (ds.takeWhile isPyDigit)
  let rest := (ds.dropWhile isPyDigit).drop 1
  let d := natOfDigits (rest.takeWhile isPyDigit)
  let y := natOfDigits ((rest.dropWhile isPyDigit).drop 1)
  if validDate y m d then some (formatDate y m d) else none

/-- The anchored check `re.match(r'^[A-Za-z]{3}\s+\d{1,2}$', ds)`. -/
def isMonthDayShape (ds : List Char) : Bool :=
  match ds with
  | a :: b :: c :: rest =>
    isPyAlpha a && isPyAlpha b && isPyAlpha c &&
    (let sp := rest.takeWhile isPySpace
     let dg := rest.dropWhile isPySpace
     !sp.isEmpty && !dg.isEmpty && dg.length ≤ 2 && dg.all isPyDigit)
  | _ => false

/-- The anchored check `re.match(r'^[A-Za-z]{3}\s+\d{1,2},\s+\d{4}$', ds)`. -/
def isMonthDayYearShape (ds : List Char) : Bool :=
  match ds with
  | a :: b :: c :: rest =>
    isPyAlpha a && isPyAlpha b && isPyAlpha c &&
    (let sp := rest.takeWhile isPySpace
     let r1 := rest.dropWhile isPySpace
     let dg := r1.takeWhile isPyDigit
     !sp.isEmpty && !dg.isEmpty && dg.length ≤ 2 &&
     (match r1.dropWhile isPyDigit with
      | ',' :: r2 =>
        let sp2 := r2.takeWhile isPySpace
        let yd := r2.dropWhile isPySpace
        !sp2.isEmpty && yd.length = 4 && yd.all isPyDigit
      | _ => false))
  | _ => false

/-- The anchored check `re.match(r'^\d{1,2}/\d{1,2}/\d{4}$', ds)`. -/
def isSlashShape (ds : List Char) : Bool :=
  let m := ds.takeWhile isPyDigit
  match ds.dropWhile isPyDigit with
  | '/' :: r1 =>
    let d := r1.takeWhile isPyDigit
    !m.isEmpty && m.length ≤ 2 && !d.isEmpty && d.length ≤ 2 &&
    (match r1.dropWhile isPyDigit with
     | '/' :: r2 => r2.length = 4 && r2.all isPyDigit
     | _ => false)
  | _ => false

/-- The shared conversion block of heuristic 1 in
`extract_update_time_from_html`, applied to a captured `date_str`:
a `Mon D[D]` capture is completed with the current year, a `Mon D[D], YYYY`
capture is parsed as written, a capture containing `ago` yields the current
date; a capture matching none of these falls through (the source returns
nothing and moves to the next pattern), and a `ValueError` inside `strptime`
does the same. -/
def convertDateStr (today : Date) (ds : List Char) : Option String :=
  if isMonthDayShape ds then strptimeBdY today.year ds
  else if isMonthDayYearShape ds then strptimeBdCommaY ds
  else if containsCI "ago" (String.mk ds) then
    some (formatDate today.year today.month today.day)
  else none

/-- The group `([A-Za-z]{3}\s+\d{1,2})` matched at the current position:
returns the captured characters and the rest after the match.  (All three
quantified elements are followed by a disjoint class, so greedy matching
needs no backtracking.) -/
def monthDayGroup (r : List Char) : Option (List Char × List Char) :=
  match r with
  | a :: b :: c :: rest =>
    if isPyAlpha a && isPyAlpha b && isPyAlpha c then
      match matchPlus isPySpace rest with
      | none => none
      | some r2 =>
        match matchDigits1or2 r2 with
        | none => none
        | some r3 => some (r.take (r.length - r3.length), r3)
    else none
  | _ => none

/-- The optional tail `(?:,\s+\d{4})?` of heuristic-1 pattern 1. -/
def matchCommaYear (cs : List Char) : Option (List Char) :=
  match cs with
  | ',' :: rest => (matchPlus isPySpace rest).bind (matchExact isPyDigit 4)
  | _ => none

/-- Pattern `Updated\s+([A-Za-z]{3}\s+\d{1,2}(?:,\s+\d{4})?)` (IGNORECASE)
tried at one position: returns the captured group. -/
def p1At (cs : List Char) : Option (List Char) :=
  (matchCIlit ['u', 'p', 'd', 'a', 't', 'e', 'd'] cs).bind (fun r1 =>
    (matchPlus isPySpace r1).bind (fun r2 =>
      (monthDayGroup r2).bind (fun pr =>
        match matchCommaYear pr.2 with
        | some r4 => some (r2.take (r2.length - r4.length))
        | none => some pr.1)))

/-- Whitespace-run prefix lengths in the greedy backtracking order of `\s+`:
the maximal run first, down to 1. -/
def wsPrefixLens (cs : List Char) : List Nat :=
  let m := (cs.takeWhile isPySpace).length
  (List.range m).map (fun i => m - i)

/-- The tail `\s+(.+?)\s+ago` of heuristic-1 pattern 2, with Python's
backtracking order: the leading `\s+` greedy (longest first), the captured
`(.+?)` lazy (shortest first, never matching a newline), the inner `\s+`
greedy, then the literal `ago` (IGNORECASE).  Returns the captured group. -/
def agoTail (cs : List Char) : Option (List Char) :=
  (wsPrefixLens cs).findSome? (fun n =>
    let afterWS := cs.drop n
    ((List.range afterWS.length).map (fun i => i + 1)).findSome? (fun k =>
      let grp := afterWS.take k
      if grp.all (fun c => c ≠ '\n') then
        (wsPrefixLens (afterWS.drop k)).findSome? (fun m2 =>
          (matchCIlit ['a', 'g', 'o'] ((afterWS.drop k).drop m2)).map (fun _ => grp))
      else none))

/-- Pattern `Updated\s+about\s+(.+?)\s+ago` (IGNORECASE) tried at one
position. -/
def p2At (cs : List Char) : Option (List Char) :=
  (matchCIlit ['u', 'p', 'd', 'a', 't', 'e', 'd'] cs).bind (fun r1 =>
    (matchPlus isPySpace r1).bind (fun r2 =>
      (matchCIlit ['a', 'b', 'o', 'u', 't'] r2).bind agoTail))

/-- Pattern `Last\s+updated\s+([A-Za-z]{3}\s+\d{1,2})` (IGNORECASE) tried at
one position. -/
def p3At (cs : List Char) : Option (List Char) :=
  (matchCIlit ['l', 'a', 's', 't'] cs).bind (fun r1 =>
    (matchPlus isPySpace r1).bind (fun r2 =>
      (matchCIlit ['u', 'p', 'd', 'a', 't', 'e', 'd'] r2).bind (fun r3 =>
        (matchPlus isPySpace r3).bind (fun r4 =>
          (monthDayGroup r4).map Prod.fst))))

/-- Pattern `Modified\s+([A-Za-z]{3}\s+\d{1,2})` (IGNORECASE) tried at one
position. -/
def p4At (cs : List Char) : Option (List Char) :=
  (matchCIlit ['m', 'o', 'd', 'i', 'f', 'i', 'e', 'd'] cs).bind (fun r1 =>
    (matchPlus isPySpace r1).bind (fun r2 =>
      (monthDayGroup r2).map Prod.fst))

/-- Heuristic 1 applied to one text node: strip it, then try the four
`date_patterns` in order; a pattern whose leftmost match converts to a date
returns it, a match that fails conversion falls through to the next pattern. -/
def tryText (today : Date) (t : String) : Option String :=
  let cs := pyStrip t.data
  ((searchPos p1At cs).bind (convertDateStr today)) <|>
  ((searchPos p2At cs).bind (convertDateStr today)) <|>
  ((searchPos p3At cs).bind (convertDateStr today)) <|>
  ((searchPos p4At cs).bind (convertDateStr today))

/-- The BeautifulSoup string filter
`re.compile(r'Updated|Last updated|Modified', re.IGNORECASE)`:
true when a branch of the alternation occurs in the text (the `Last updated`
branch is subsumed by `Updated`). -/
def keywordFilter (t : String) : Bool :=
  containsCI "updated" t || containsCI "modified" t

/-- The BeautifulSoup view of a fetched page, as
`extract_update_time_from_html` consumes it: the text nodes
(`soup.find_all(string=...)` candidates) and `<meta>` `content` attribute
values in document order, plus the raw `html_content` string that heuristic 3
scans directly. -/
structure Doc where
  texts : List String
  metas : List String
  raw : String

/-- Heuristic 1: over the text nodes matching the keyword filter, in order,
return the first node whose patterns yield a date. -/
def method1 (today : Date) (texts : List String) : Option String :=
  (texts.filter keywordFilter).findSome? (tryText today)

/-- `re.search(r'(\d{4}-\d{2}-\d{2})', content)` tried at one position,
returning the captured characters and the rest after the match. -/
def iso3At (cs : List Char) : Option (List Char × List Char) :=
  match cs with
  | a :: b :: c :: d :: h1 :: e :: f :: h2 :: g :: h :: rest =>
    if h1 = '-' && h2 = '-' && [a, b, c, d, e, f, g, h].all isPyDigit then
      some ([a, b, c, d, h1, e, f, h2, g, h], rest)
    else none
  | _ => none

/-- Leftmost `\d{4}-\d{2}-\d{2}` match inside a meta tag's `content`. -/
def firstISO (content : String) : Option String :=
  (searchPos (fun cs => (iso3At cs).map Prod.fst) content.data).map String.mk

/-- Heuristic 2: `soup.find_all('meta', attrs={'content': re.compile(...)})`
keeps the meta tags whose content contains an ISO date; the first such date is
returned.  A tag with no match contributes nothing, so filtering and
re-searching collapse to one scan per tag. -/
def method2 (metas : List String) : Option String :=
  metas.findSome? firstISO

/-- `re.findall`: all non-overlapping matches, scanning left to right (every
pattern used here matches at least one character, so the input length bounds
the number of steps). -/
def findallGen : Nat → (List Char → Option (List Char × List Char)) → List Char →
    List (List Char)
  | 0, _, _ => []
  | _, _, [] => []
  | fuel + 1, f, c :: rest =>
    match f (c :: rest) with
    | some (m, r) => m :: findallGen fuel f r
    | none => findallGen fuel f rest

/-- Pattern `([A-Za-z]{3}\s+\d{1,2},\s+\d{4})` tried at one position. -/
def mdyAt (cs : List Char) : Option (List Char × List Char) :=
  (monthDayGroup cs).bind (fun pr =>
    match pr.2 with
    | ',' :: r1 =>
      (matchPlus isPySpace r1).bind (fun r2 =>
        (matchExact isPyDigit 4 r2).map (fun r3 =>
          (cs.take (cs.length - r3.length), r3)))
    | _ => none)

/-- `\d{1,2}` followed by `/`, with the one backtracking step Python needs
here (two digits if the third character is the slash, else one digit). -/
def digitsThenSlash (cs : List Char) : Option (List Char) :=
  match cs with
  | a :: b :: c :: rest =>
    if isPyDigit a && isPyDigit b && c = '/' then some rest
    else if isPyDigit a && b = '/' then some (c :: rest)
    else none
  | _ => none

/-- Pattern `(\d{1,2}/\d{1,2}/\d{4})` tried at one position. -/
def slashAt (cs : List Char) : Option (List Char × List Char) :=
  (digitsThenSlash cs).bind (fun r1 =>
    (digitsThenSlash r1).bind (fun r2 =>
      (matchExact isPyDigit 4 r2).map (fun r3 =>
        (cs.take (cs.length - r3.length), r3))))

/-- The shared conversion block of heuristic 3, applied to one `findall`
match: an exact ISO-shaped match is returned verbatim (no calendar
validation), the other three shapes go through `strptime`; a `ValueError`
falls through to the next match. -/
def convert3 (today : Date) (ds : List Char) : Option String :=
  if shapeISOList ds then some (String.mk ds)
  else if isMonthDayYearShape ds then strptimeBdCommaY ds
  else if isMonthDayShape ds then strptimeBdY today.year ds
  else if isSlashShape ds then strptimeMdY ds
  else none

/-- Heuristic 3: `re.findall` each of the four `date_patterns` over the raw
document, in the fixed priority order, returning the first match that
converts. -/
def method3 (today : Date) (raw : String) : Option String :=
  let cs := raw.data
  ((findallGen cs.length iso3At cs).findSome? (convert3 today)) <|>
  ((findallGen cs.length mdyAt cs).findSome? (convert3 today)) <|>
  ((findallGen cs.length monthDayGroup cs).findSome? (convert3 today)) <|>
  ((findallGen cs.length slashAt cs).findSome? (convert3 today))

/-- `HuggingFaceModelUpdater.extract_update_time_from_html`: the three
heuristics in order, short-circuiting on the first that yields a date. -/
def extract_update_time_from_html (doc : Doc) (today : Date) : Option String :=
  method1 today doc.texts <|> method2 doc.metas <|> method3 today doc.raw

/-- Which source produced a resolved date. -/
inductive Source where
  | structured
  | document
deriving DecidableEq

/-- Error kinds of the document path (`requests.RequestException` covers
connection errors, timeouts, and the non-2xx statuses surfaced by
`raise_for_status`). -/
inductive ErrKind where
  | networkError
deriving DecidableEq

/-- Per-identifier terminal outcome of one resolution attempt. -/
inductive Outcome where
  | resolved (date : String) (src : Source)
  | unresolved
  | failed (err : ErrKind)
deriving DecidableEq

/-- The `Optional[str]` that `fetch_model_update_time` actually returns for an
outcome: the date on `resolved`, `None` otherwise. -/
def retValue : Outcome → Option String
  | .resolved d _ => some d
  | _ => none

/-- The document fetch `self.session.get(url, timeout=15)` +
`raise_for_status()`: a raised `RequestException`, or the page text. -/
inductive FetchResult where
  | netError
  | okText (doc : Doc)

/-- Observable side effects of one `fetch_model_update_time` call. -/
inductive Effect where
  | pacingDelay
  | docFetch
deriving DecidableEq

/-- Everything outside the process that one resolution reads: the structured
endpoint's reply, the document fetch's result, and the wall clock. -/
structure Env where
  api : ApiResponse
  doc : FetchResult
  today : Date

/-- Result of one `fetch_model_update_time` call: the outcome plus the side
effects performed and the increments applied (under `progress_lock`) to
`updated_count` and `failed_count`. -/
structure FetchRun where
  outcome : Outcome
  effects : List Effect
  updatedDelta : Nat
  failedDelta : Nat

/-- `HuggingFaceModelUpdater.fetch_model_update_time`: try the API first and
return immediately on success (no delay, no document fetch); otherwise sleep
the pacing delay and fetch the page, mapping a network failure to
`failed`, a page without an extractable date to `unresolved` (the source
prints a failure line and bumps `failed_count`), and an extracted date to
`resolved`. -/
def fetch_model_update_time (env : Env) : FetchRun :=
  match extract_update_time_from_api env.api with
  | some d =>
    { outcome := .resolved d .structured, effects := [],
      updatedDelta := 1, failedDelta := 0 }
  | none =>
    match env.doc with
    | .netError =>
      { outcome := .failed .networkError, effects := [.pacingDelay, .docFetch],
        updatedDelta := 0, failedDelta := 1 }
    | .okText doc =>
      match extract_update_time_from_html doc env.today with
      | some d =>
        { outcome := .resolved d .document, effects := [.pacingDelay, .docFetch],
          updatedDelta := 1, failedDelta := 0 }
      | none =>
        { outcome := .unresolved, effects := [.pacingDelay, .docFetch],
          updatedDelta := 0, failedDelta := 1 }

/-- One CSV row as `csv.DictReader` hands it to `update_csv_file`: the
`name` and `update_time` columns the code touches, and the remaining columns
untouched by it. -/
structure Row where
  name : String
  update_time : String
  rest : List (String × String)
deriving DecidableEq

/-- Row eligibility: `row['update_time'] == '-' or not row['update_time']`
(the falsy string is the empty one). -/
def eligible (r : Row) : Bool :=
  r.update_time == "-" || r.update_time == ""

/-- The `models_to_update` list built by `enumerate(rows)` starting at index
`i`: the `(index, name)` pairs of eligible rows. -/
def models_to_update_from (i : Nat) : List Row → List (Nat × String)
  | [] => []
  | r :: rs =>
    if eligible r then (i, r.name) :: models_to_update_from (i + 1) rs
    else models_to_update_from (i + 1) rs

/-- `models_to_update` as built in `update_csv_file`. -/
def models_to_update (rows : List Row) : List (Nat × String) :=
  models_to_update_from 0 rows

/-- The identifiers submitted to the thread pool, one per eligible row. -/
def submittedNames (rows : List Row) : List String :=
  (models_to_update rows).map Prod.snd

/-- `rows[index]['update_time'] = update_time`. -/
def setUpdateTime : List Row → Nat → String → List Row
  | [], _, _ => []
  | r :: rs, 0, t => { r with update_time := t } :: rs
  | r :: rs, i + 1, t => r :: setUpdateTime rs i t

/-- Handling of one completed future in `update_csv_file`: write the returned
date into the row at the task's index when it is not `None`. -/
def stepTask (envOf : String → Env) (acc : List Row) (task : Nat × String) :
    List Row :=
  match retValue (fetch_model_update_time (envOf task.2)).outcome with
  | some t => setUpdateTime acc task.1 t
  | none => acc

/-- `HuggingFaceModelUpdater.update_csv_file`, its in-memory effect on the
row list: select the eligible rows, resolve each submitted identifier under
the environment `envOf`, and merge the results back.  `as_completed` hands
the futures back in an arbitrary order, but each task writes only its own
row index, so the submission-order fold used here computes the same rows. -/
def update_csv_file (envOf : String → Env) (rows : List Row) : List Row :=
  (models_to_update rows).foldl (stepTask envOf) rows

/-! ## Helper lemmas -/

theorem opt_orElse_eq_some {α : Type} (a b : Option α) (x : α) :
    (a <|> b) = some x ↔ a = some x ∨ (a = none ∧ b = some x) := by
  cases a <;> simp [Option.orElse]

theorem findSome_eq_some {α β : Type} (f : α → Option β) (l : List α) (b : β)
    (h : l.findSome? f = some b) : ∃ a ∈ l, f a = some b := by
  induction l with
  | nil => simp [List.findSome?] at h
  | cons x xs ih =>
    rw [List.findSome?_cons] at h
    cases hf : f x with
    | some v =>
      rw [hf] at h
      simp only [] at h
      cases h
      exact ⟨x, by simp, hf⟩
    | none =>
      rw [hf] at h
      obtain ⟨a, ha, hfa⟩ := ih h
      exact ⟨a, by simp [ha], hfa⟩

theorem searchPos_eq_some {α : Type} (f : List Char → Option α) (cs : List Char)
    (a : α) (h : searchPos f cs = some a) : ∃ suff, f suff = some a := by
  induction cs with
  | nil => exact ⟨[], h⟩
  | cons c rest ih =>
    rw [searchPos] at h
    cases hf : f (c :: rest) with
    | some v =>
      rw [hf] at h
      simp [Option.orElse] at h
      exact ⟨c :: rest, by rw [hf, h]⟩
    | none =>
      rw [hf] at h
      simp [Option.orElse] at h
      exact ih h

theorem digitChar_mod_isDigit (n : Nat) :
    isPyDigit (Nat.digitChar (n % 10)) = true := by
  have hlt : n % 10 < 10 := Nat.mod_lt _ (by decide)
  have hall : ∀ k < 10, isPyDigit (Nat.digitChar k) = true := by decide
  exact hall _ hlt

theorem formatDate_shapeISO (y m d : Nat) : shapeISO (formatDate y m d) = true := by
  simp [formatDate, shapeISO, shapeISOList, digitChar_mod_isDigit]

theorem shapeISOList_exists (cs : List Char) (h : shapeISOList cs = true) :
    ∃ a b c d e f g h2, cs = [a, b, c, d, '-', e, f, '-', g, h2] ∧
      [a, b, c, d, e, f, g, h2].all isPyDigit = true := by
  unfold shapeISOList at h
  split at h
  next a b c d h1 e f h2 g h3 =>
    simp only [Bool.and_eq_true, decide_eq_true_eq] at h
    exact ⟨a, b, c, d, e, f, g, h3, by rw [h.1.1, h.1.2], h.2⟩
  next => simp at h

theorem shapeISO_length (s : String) (h : shapeISO s = true) : s.length = 10 := by
  obtain ⟨a, b, c, d, e, f, g, h2, hdata, _⟩ := shapeISOList_exists s.data h
  show s.data.length = 10
  rw [hdata]
  rfl

theorem stringMk_data (s : String) : String.mk s.data = s := by
  cases s
  rfl

/-! ## Claim theorems -/

/-- C1: whenever the structured (API) source yields a valid date, the
resolver returns Resolved(date, "structured"), and the document path is
never taken for that identifier: no pacing delay and no document fetch occur,
and only the success counter is bumped. -/
theorem c1_structured_short_circuit (env : Env) (d : String)
    (h : extract_update_time_from_api env.api = some d) :
    (fetch_model_update_time env).outcome = .resolved d .structured ∧
    (fetch_model_update_time env).effects = [] ∧
    (fetch_model_update_time env).updatedDelta = 1 ∧
    (fetch_model_update_time env).failedDelta = 0 := by
  simp [fetch_model_update_time, h]

/-- Environment for the C1 witness: the API answers with a `lastModified`
timestamp; the document endpoint would fail if it were consulted. -/
def envC1 : Env :=
  { api := .ok 200 (.obj (some "2024-01-25T10:00:00Z") none),
    doc := .netError, today := ⟨2025, 10, 12⟩ }

theorem c1_structured_short_circuit_witness :
    (fetch_model_update_time envC1).outcome = .resolved "2024-01-25" .structured ∧
    (fetch_model_update_time envC1).effects = [] ∧
    (fetch_model_update_time envC1).updatedDelta = 1 ∧
    (fetch_model_update_time envC1).failedDelta = 0 :=
  c1_structured_short_circuit envC1 "2024-01-25" (by decide)

/-- C8: the structured extractor returns Absence (`none`) exactly on its
failure modes — network error or timeout, non-200 status, JSON parse
failure, or timestamp fields that are missing or unparseable; and, being a
total function of the response, it never raises past its boundary (the
source's outer bare `except`). -/
theorem c8_api_failures_yield_none (resp : ApiResponse) :
    extract_update_time_from_api resp = none ↔ apiFailureB resp = true := by
  cases resp with
  | error => simp [extract_update_time_from_api, apiFailureB]
  | ok status payload =>
    cases payload with
    | parseFail =>
      simp only [extract_update_time_from_api, apiFailureB]
      split <;> simp
    | obj lm ca =>
      by_cases hs : status = 200
      · cases hlm : lm.bind apiFieldDate with
        | some d => simp [extract_update_time_from_api, apiFailureB, hs, hlm]
        | none =>
          cases hca : ca.bind apiFieldDate with
          | some d => simp [extract_update_time_from_api, apiFailureB, hs, hlm, hca]
          | none => simp [extract_update_time_from_api, apiFailureB, hs, hlm, hca]
      · simp [extract_update_time_from_api, apiFailureB, hs]

theorem c8_api_failures_yield_none_witness :
    extract_update_time_from_api (.ok 503 (.obj (some "2024-01-25T10:00:00Z") none)) =
      none :=
  (c8_api_failures_yield_none (.ok 503 (.obj (some "2024-01-25T10:00:00Z") none))).mpr
    (by decide)

/-- C4 (code evaluation at the failing input): on a document whose only
date-bearing text is the relative-duration phrase "Updated about 10 hours
ago", the document extractor returns Absence, not the current date, whatever
the clock says.  Pattern 2 captures only "10 hours" — the literal `ago` lies
outside the group — so the `'ago' in date_str` branch never fires, and no
other pattern or heuristic matches this text. -/
theorem c4_relative_duration_not_resolved (today : Date) :
    extract_update_time_from_html
      ⟨["Updated about 10 hours ago"], [], "Updated about 10 hours ago"⟩ today =
      none := rfl

theorem opt_some_orElse {α : Type} (a : α) (b : Option α) : (some a <|> b) = some a := rfl

theorem opt_none_orElse {α : Type} (b : Option α) : (none <|> b) = b := rfl

theorem findallGen_cons_some (fuel : Nat) (f : List Char → Option (List Char × List Char))
    (c : Char) (rest m r : List Char) (h : f (c :: rest) = some (m, r)) :
    findallGen (fuel + 1) f (c :: rest) = m :: findallGen fuel f r := by
  rw [findallGen, h]

theorem findallGen_nil (fuel : Nat) (f : List Char → Option (List Char × List Char)) :
    findallGen fuel f [] = [] := by
  cases fuel <;> rfl

/-- C10: whenever heuristic 2 (meta tags) or heuristic 3's ISO pattern is what
matches, the matched `\d{4}-\d{2}-\d{2}` string is returned verbatim with no
calendar validation: every ISO-shaped string placed as the sole meta content,
or as the raw document scanned by heuristic 3, comes back unchanged —
including shapes like "2025-13-99" that are not calendar dates. -/
theorem c10_iso_match_returned_verbatim (s : String) (today : Date)
    (h : shapeISO s = true) :
    extract_update_time_from_html ⟨[], [s], ""⟩ today = some s ∧
    extract_update_time_from_html ⟨[], [], s⟩ today = some s := by
  obtain ⟨a, b, c, d, e, f, g, h2, hdata, hall⟩ := shapeISOList_exists s.data h
  have hiso : iso3At [a, b, c, d, '-', e, f, '-', g, h2] =
      some ([a, b, c, d, '-', e, f, '-', g, h2], []) := by
    simp [iso3At, hall]
  constructor
  · have hfirst : firstISO s = some s := by
      unfold firstISO
      rw [hdata, searchPos]
      simp only [hiso, Option.map_some', opt_some_orElse]
      rw [← hdata, stringMk_data]
    have hm2 : method2 [s] = some s := by
      unfold method2
      rw [List.findSome?_cons, hfirst]
    show (method1 today [] <|> (method2 [s] <|> method3 today "")) = some s
    rw [show method1 today [] = none from rfl, opt_none_orElse, hm2, opt_some_orElse]
  · have hconv : convert3 today [a, b, c, d, '-', e, f, '-', g, h2] =
        some (String.mk [a, b, c, d, '-', e, f, '-', g, h2]) := by
      unfold convert3
      rw [if_pos]
      show shapeISOList _ = true
      simp [shapeISOList, hall]
    have hm3 : method3 today s = some s := by
      show ((findallGen s.data.length iso3At s.data).findSome? (convert3 today) <|>
           ((findallGen s.data.length mdyAt s.data).findSome? (convert3 today) <|>
            ((findallGen s.data.length monthDayGroup s.data).findSome? (convert3 today) <|>
             (findallGen s.data.length slashAt s.data).findSome? (convert3 today)))) = some s
      rw [hdata, List.length_cons,
          findallGen_cons_some _ _ _ _ _ _ hiso, findallGen_nil,
          List.findSome?_cons, hconv, opt_some_orElse, ← hdata, stringMk_data]
    show (method1 today [] <|> (method2 [] <|> method3 today s)) = some s
    rw [show method1 today [] = none from rfl, opt_none_orElse,
        show method2 [] = none from rfl, opt_none_orElse, hm3]

/-- Witness for C10 at the concrete input "2025-13-99": the extractor emits
it as a resolved date from both heuristics although it is not a valid
calendar date. -/
theorem c10_iso_match_returned_verbatim_witness :
    shapeISO "2025-13-99" = true ∧
    extract_update_time_from_html ⟨[], ["2025-13-99"], ""⟩ ⟨2025, 10, 12⟩ =
      some "2025-13-99" ∧
    extract_update_time_from_html ⟨[], [], "2025-13-99"⟩ ⟨2025, 10, 12⟩ =
      some "2025-13-99" ∧
    isRealDateString "2025-13-99" = false :=
  ⟨by decide,
   (c10_iso_match_returned_verbatim "2025-13-99" ⟨2025, 10, 12⟩ (by decide)).1,
   (c10_iso_match_returned_verbatim "2025-13-99" ⟨2025, 10, 12⟩ (by decide)).2,
   by decide⟩

theorem strptimeBdY_shape (y : Nat) (ds : List Char) (s : String)
    (h : strptimeBdY y ds = some s) : shapeISO s = true := by
  simp only [strptimeBdY] at h
  split at h
  · cases h
  · split at h
    · injection h with h'
      rw [← h']
      exact formatDate_shapeISO _ _ _
    · cases h

theorem strptimeBdCommaY_shape (ds : List Char) (s : String)
    (h : strptimeBdCommaY ds = some s) : shapeISO s = true := by
  simp only [strptimeBdCommaY] at h
  split at h
  · cases h
  · split at h
    · injection h with h'
      rw [← h']
      exact formatDate_shapeISO _ _ _
    · cases h

theorem strptimeMdY_shape (ds : List Char) (s : String)
    (h : strptimeMdY ds = some s) : shapeISO s = true := by
  simp only [strptimeMdY] at h
  split at h
  · injection h with h'
    rw [← h']
    exact formatDate_shapeISO _ _ _
  · cases h

theorem convertDateStr_shape (t : Date) (ds : List Char) (s : String)
    (h : convertDateStr t ds = some s) : shapeISO s = true := by
  unfold convertDateStr at h
  split_ifs at h
  · exact strptimeBdY_shape _ _ _ h
  · exact strptimeBdCommaY_shape _ _ h
  · injection h with h'
    rw [← h']
    exact formatDate_shapeISO _ _ _

theorem convert3_shape (t : Date) (ds : List Char) (s : String)
    (h : convert3 t ds = some s) : shapeISO s = true := by
  unfold convert3 at h
  split_ifs at h with h1 h2 h3 h4
  · injection h with h'
    rw [← h']
    exact h1
  · exact strptimeBdCommaY_shape _ _ h
  · exact strptimeBdY_shape _ _ _ h
  · exact strptimeMdY_shape _ _ h

theorem iso3At_shape (cs : List Char) (pr : List Char × List Char)
    (h : iso3At cs = some pr) : shapeISOList pr.1 = true := by
  unfold iso3At at h
  split at h
  next a b c d h1 e f h2 g h3 rest =>
    split_ifs at h with hc
    injection h with h'
    rw [← h']
    simp only [Bool.and_eq_true, decide_eq_true_eq] at hc
    simp [shapeISOList, hc.1.1, hc.1.2, hc.2]
  next => cases h

theorem apiFieldDate_shape (v : String) (s : String)
    (h : apiFieldDate v = some s) : shapeISO s = true := by
  unfold apiFieldDate at h
  obtain ⟨t, _, hfmt⟩ := Option.map_eq_some'.mp h
  rw [← hfmt]
  exact formatDate_shapeISO _ _ _

theorem bindConv_shape (t : Date) (o : Option (List Char)) (s : String)
    (h : o.bind (convertDateStr t) = some s) : shapeISO s = true := by
  obtain ⟨g, _, hg⟩ := Option.bind_eq_some.mp h
  exact convertDateStr_shape _ _ _ hg

theorem tryText_shape (t : Date) (x : String) (s : String)
    (h : tryText t x = some s) : shapeISO s = true := by
  simp only [tryText] at h
  rcases (opt_orElse_eq_some _ _ _).mp h with h1 | ⟨_, h'⟩
  · exact bindConv_shape _ _ _ h1
  · rcases (opt_orElse_eq_some _ _ _).mp h' with h2 | ⟨_, h''⟩
    · exact bindConv_shape _ _ _ h2
    · rcases (opt_orElse_eq_some _ _ _).mp h'' with h3 | ⟨_, h4⟩
      · exact bindConv_shape _ _ _ h3
      · exact bindConv_shape _ _ _ h4

theorem method1_shape (t : Date) (texts : List String) (s : String)
    (h : method1 t texts = some s) : shapeISO s = true := by
  unfold method1 at h
  obtain ⟨x, _, hx⟩ := findSome_eq_some _ _ _ h
  exact tryText_shape _ _ _ hx

theorem firstISO_shape (c : String) (s : String) (h : firstISO c = some s) :
    shapeISO s = true := by
  unfold firstISO at h
  obtain ⟨l, hl, hmk⟩ := Option.map_eq_some'.mp h
  obtain ⟨suff, hsuff⟩ := searchPos_eq_some _ _ _ hl
  obtain ⟨pr, hpr, hfst⟩ := Option.map_eq_some'.mp hsuff
  rw [← hmk]
  show shapeISOList l = true
  rw [← hfst]
  exact iso3At_shape _ _ hpr

theorem method2_shape (metas : List String) (s : String)
    (h : method2 metas = some s) : shapeISO s = true := by
  unfold method2 at h
  obtain ⟨c, _, hc⟩ := findSome_eq_some _ _ _ h
  exact firstISO_shape _ _ hc

theorem method3_shape (t : Date) (raw : String) (s : String)
    (h : method3 t raw = some s) : shapeISO s = true := by
  have hfs : ∀ l : List (List Char), l.findSome? (convert3 t) = some s →
      shapeISO s = true := by
    intro l hl
    obtain ⟨m, _, hm⟩ := findSome_eq_some _ _ _ hl
    exact convert3_shape _ _ _ hm
  simp only [method3] at h
  rcases (opt_orElse_eq_some _ _ _).mp h with h1 | ⟨_, h'⟩
  · exact hfs _ h1
  · rcases (opt_orElse_eq_some _ _ _).mp h' with h2 | ⟨_, h''⟩
    · exact hfs _ h2
    · rcases (opt_orElse_eq_some _ _ _).mp h'' with h3 | ⟨_, h4⟩
      · exact hfs _ h3
      · exact hfs _ h4

theorem extract_html_shape (doc : Doc) (t : Date) (s : String)
    (h : extract_update_time_from_html doc t = some s) : shapeISO s = true := by
  unfold extract_update_time_from_html at h
  rcases (opt_orElse_eq_some _ _ _).mp h with h1 | ⟨_, h'⟩
  · exact method1_shape _ _ _ h1
  · rcases (opt_orElse_eq_some _ _ _).mp h' with h2 | ⟨_, h3⟩
    · exact method2_shape _ _ h2
    · exact method3_shape _ _ _ h3

theorem extract_api_shape (resp : ApiResponse) (s : String)
    (h : extract_update_time_from_api resp = some s) : shapeISO s = true := by
  unfold extract_update_time_from_api at h
  split at h
  · cases h
  · split at h
    · split at h
      · cases h
      · split at h
        next d heq =>
          injection h with h'
          obtain ⟨v, _, hv⟩ := Option.bind_eq_some.mp heq
          rw [← h']
          exact apiFieldDate_shape _ _ hv
        next heq =>
          obtain ⟨v, _, hv⟩ := Option.bind_eq_some.mp h
          exact apiFieldDate_shape _ _ hv
    · cases h

/-- C5: whenever either extractor resolves a date, the emitted string is
exactly 10 characters in `YYYY-MM-DD` shape — on every return path of the
structured extractor and of all three document heuristics. -/
theorem c5_resolved_dates_canonical (resp : ApiResponse) (doc : Doc)
    (today : Date) (s : String) :
    (extract_update_time_from_api resp = some s →
      s.length = 10 ∧ shapeISO s = true) ∧
    (extract_update_time_from_html doc today = some s →
      s.length = 10 ∧ shapeISO s = true) := by
  constructor
  · intro h
    have hs := extract_api_shape _ _ h
    exact ⟨shapeISO_length _ hs, hs⟩
  · intro h
    have hs := extract_html_shape _ _ _ h
    exact ⟨shapeISO_length _ hs, hs⟩

theorem c5_resolved_dates_canonical_witness :
    ("2024-01-25" : String).length = 10 ∧ shapeISO "2024-01-25" = true ∧
    ("2025-08-06" : String).length = 10 ∧ shapeISO "2025-08-06" = true := by
  have h1 := (c5_resolved_dates_canonical
    (.ok 200 (.obj (some "2024-01-25T10:00:00Z") none))
    ⟨["Updated Aug 6, 2025"], [], ""⟩ ⟨2025, 10, 12⟩ "2024-01-25").1 (by decide)
  have h2 := (c5_resolved_dates_canonical
    (.ok 200 (.obj (some "2024-01-25T10:00:00Z") none))
    ⟨["Updated Aug 6, 2025"], [], ""⟩ ⟨2025, 10, 12⟩ "2025-08-06").2 (by decide)
  exact ⟨h1.1, h1.2, h2.1, h2.2⟩

/-- C6: heuristic priority — on any document whose first keyword-bearing text
fragment is the phrase "Updated Aug 6, 2025", the document extractor returns
the phrase-derived date "2025-08-06", whatever ISO dates sit in the meta tags
or elsewhere in the raw document: heuristic 1 is tried first and
short-circuits heuristics 2 and 3. -/
theorem c6_keyword_phrase_beats_iso (pre post metas : List String) (raw : String)
    (today : Date) (hpre : ∀ t ∈ pre, keywordFilter t = false) :
    extract_update_time_from_html
      ⟨pre ++ "Updated Aug 6, 2025" :: post, metas, raw⟩ today =
      some "2025-08-06" := by
  have htry : tryText today "Updated Aug 6, 2025" = some "2025-08-06" := by
    have hsp : searchPos p1At (pyStrip "Updated Aug 6, 2025".data) =
        some ['A', 'u', 'g', ' ', '6', ',', ' ', '2', '0', '2', '5'] := by decide
    have hcv : convertDateStr today
        ['A', 'u', 'g', ' ', '6', ',', ' ', '2', '0', '2', '5'] =
        some "2025-08-06" := by
      unfold convertDateStr
      rw [if_neg (by decide), if_pos (by decide)]
      decide
    simp only [tryText]
    rw [hsp,
        show (some ['A', 'u', 'g', ' ', '6', ',', ' ', '2', '0', '2', '5']).bind
          (convertDateStr today) = some "2025-08-06" from hcv,
        opt_some_orElse]
  have hm1 : method1 today (pre ++ "Updated Aug 6, 2025" :: post) =
      some "2025-08-06" := by
    unfold method1
    rw [List.filter_append,
        List.filter_eq_nil_iff.mpr (fun t ht => by simp [hpre t ht]),
        List.filter_cons_of_pos (by decide), List.nil_append,
        List.findSome?_cons, htry]
  show (method1 today (pre ++ "Updated Aug 6, 2025" :: post) <|>
        (method2 metas <|> method3 today raw)) = some "2025-08-06"
  rw [hm1, opt_some_orElse]

theorem c6_keyword_phrase_beats_iso_witness :
    extract_update_time_from_html
      ⟨["Updated Aug 6, 2025"], ["2024-01-01"], "see 2024-01-01"⟩ ⟨2030, 1, 1⟩ =
      some "2025-08-06" :=
  c6_keyword_phrase_beats_iso [] [] ["2024-01-01"] "see 2024-01-01" ⟨2030, 1, 1⟩
    (by simp)

/-- Every month has at most 31 days under the `datetime` validation. -/
theorem daysInMonth_le_31 (y m : Nat) : daysInMonth y m ≤ 31 := by
  unfold daysInMonth
  split_ifs <;> omega

theorem bool_not_true (b : Bool) (h : (!b) = true) : b = false := by
  cases b
  · rfl
  · cases h

theorem strptimeBdY_resolves (y mi d : Nat) (g : List Char)
    (hmon : monthIndex (String.mk ((g.take 3).map Char.toLower)) = some mi)
    (hday : natOfDigits ((g.drop 3).dropWhile isPySpace) = d)
    (hv : validDate y mi d = true) :
    strptimeBdY y g = some (formatDate y mi d) := by
  simp only [strptimeBdY]
  rw [hmon]
  show (if validDate y mi (natOfDigits ((g.drop 3).dropWhile isPySpace)) = true
        then some (formatDate y mi (natOfDigits ((g.drop 3).dropWhile isPySpace)))
        else none) = some (formatDate y mi d)
  rw [hday, if_pos hv]

/-- Decidable side conditions tying a keyword text to heuristic 1: the text
passes the keyword filter, pattern 1's leftmost match captures a group of
`Mon D[D]` shape, and that group names month `mi` and day `d`. -/
def updatedPhraseOk (t : String) (mi d : Nat) : Bool :=
  (List.filter keywordFilter [t] == [t]) &&
  (match searchPos p1At (pyStrip t.data) with
   | none => false
   | some g =>
     isMonthDayShape g &&
     (monthIndex (String.mk ((g.take 3).map Char.toLower)) == some mi) &&
     (natOfDigits ((g.drop 3).dropWhile isPySpace) == d))

/-- A text whose pattern-1 capture is `Mon D[D]` for month `mi`, day `d`
resolves through heuristic 1 to that month and day in the clock's year,
whenever the completed date is one `datetime` accepts. -/
theorem updatedPhraseResolves (y M D mi d : Nat) (t : String)
    (metas : List String) (raw : String)
    (hok : updatedPhraseOk t mi d = true) (hv : validDate y mi d = true) :
    extract_update_time_from_html ⟨[t], metas, raw⟩ ⟨y, M, D⟩ =
      some (formatDate y mi d) := by
  unfold updatedPhraseOk at hok
  rw [Bool.and_eq_true] at hok
  obtain ⟨hflt, hok⟩ := hok
  rw [beq_iff_eq] at hflt
  split at hok
  · cases hok
  next g heq =>
    rw [Bool.and_eq_true, Bool.and_eq_true] at hok
    obtain ⟨⟨hshape, hmon⟩, hday⟩ := hok
    rw [beq_iff_eq] at hmon
    rw [beq_iff_eq] at hday
    have hcv : convertDateStr ⟨y, M, D⟩ g = some (formatDate y mi d) := by
      unfold convertDateStr
      rw [if_pos hshape]
      exact strptimeBdY_resolves y mi d g hmon hday hv
    have htry : tryText ⟨y, M, D⟩ t = some (formatDate y mi d) := by
      simp only [tryText]
      rw [heq, show (some g).bind (convertDateStr ⟨y, M, D⟩) =
            some (formatDate y mi d) from hcv, opt_some_orElse]
    have hm1 : method1 ⟨y, M, D⟩ [t] = some (formatDate y mi d) := by
      unfold method1
      rw [hflt, List.findSome?_cons, htry]
    show (method1 ⟨y, M, D⟩ [t] <|> (method2 metas <|> method3 ⟨y, M, D⟩ raw)) =
      some (formatDate y mi d)
    rw [hm1, opt_some_orElse]

/-- Decidable side conditions tying a raw document to heuristic 3: the first
two `findall` patterns find nothing, the bare `Mon DD` pattern finds exactly
one match, of `Mon D[D]` shape (not ISO, not `Mon D, YYYY`), naming month
`mi` and day `d`. -/
def bareScanOk (raw : String) (mi d : Nat) : Bool :=
  (findallGen raw.data.length iso3At raw.data == ([] : List (List Char))) &&
  (findallGen raw.data.length mdyAt raw.data == ([] : List (List Char))) &&
  (match findallGen raw.data.length monthDayGroup raw.data with
   | [g] =>
     !(shapeISOList g) && !(isMonthDayYearShape g) && isMonthDayShape g &&
     (monthIndex (String.mk ((g.take 3).map Char.toLower)) == some mi) &&
     (natOfDigits ((g.drop 3).dropWhile isPySpace) == d)
   | _ => false)

/-- A keywordless document whose whole-document scan finds exactly the bare
match `Mon D[D]` for month `mi`, day `d` resolves through heuristic 3 to that
month and day in the clock's year, whenever the completed date is one
`datetime` accepts. -/
theorem bareScanResolves (y M D mi d : Nat) (raw : String)
    (hok : bareScanOk raw mi d = true) (hv : validDate y mi d = true) :
    extract_update_time_from_html ⟨[], [], raw⟩ ⟨y, M, D⟩ =
      some (formatDate y mi d) := by
  unfold bareScanOk at hok
  rw [Bool.and_eq_true, Bool.and_eq_true] at hok
  obtain ⟨⟨hiso, hmdy⟩, hok⟩ := hok
  rw [beq_iff_eq] at hiso
  rw [beq_iff_eq] at hmdy
  split at hok
  next g heq =>
    rw [Bool.and_eq_true, Bool.and_eq_true, Bool.and_eq_true, Bool.and_eq_true] at hok
    obtain ⟨⟨⟨⟨hni, hnm⟩, hshape⟩, hmon⟩, hday⟩ := hok
    have hni2 := bool_not_true _ hni
    have hnm2 := bool_not_true _ hnm
    rw [beq_iff_eq] at hmon
    rw [beq_iff_eq] at hday
    have hcv3 : convert3 ⟨y, M, D⟩ g = some (formatDate y mi d) := by
      unfold convert3
      rw [if_neg (by simp [hni2]), if_neg (by simp [hnm2]), if_pos hshape]
      exact strptimeBdY_resolves y mi d g hmon hday hv
    have hm3 : method3 ⟨y, M, D⟩ raw = some (formatDate y mi d) := by
      simp only [method3]
      rw [hiso, hmdy, heq, List.findSome?_nil, opt_none_orElse, opt_none_orElse,
          List.findSome?_cons, hcv3]
      rfl
    show (method1 ⟨y, M, D⟩ [] <|> (method2 [] <|> method3 ⟨y, M, D⟩ raw)) =
      some (formatDate y mi d)
    rw [show method1 ⟨y, M, D⟩ [] = none from rfl, opt_none_orElse,
        show method2 [] = none from rfl, opt_none_orElse, hm3]
  next => cases hok

/-- C7 counterexample: "Updated Feb 29" at non-leap clock year 2025.  The
phrase IS matched by pattern 1 (first conjunct), yet the extractor returns
Absence, not "2025-02-29": `strptime` raises on the invalid completed date
and every later pattern and heuristic also fails; at leap year 2024 the very
same document resolves.  So a matched bare month/day phrase does not always
resolve to that month and day in the current year. -/
theorem c7_matched_feb29_non_leap_unresolved :
    (searchPos p1At (pyStrip "Updated Feb 29".data)).isSome = true ∧
    extract_update_time_from_html
      ⟨["Updated Feb 29"], [], "Updated Feb 29"⟩ ⟨2025, 10, 12⟩ = none ∧
    extract_update_time_from_html
      ⟨["Updated Feb 29"], [], "Updated Feb 29"⟩ ⟨2025, 10, 12⟩ ≠
      some "2025-02-29" ∧
    extract_update_time_from_html
      ⟨["Updated Feb 29"], [], "Updated Feb 29"⟩ ⟨2024, 10, 12⟩ =
      some "2024-02-29" := by
  exact ⟨by decide, by decide, by decide, by decide⟩

/-- C7 (amended): a matched bare month-abbreviation/day phrase without a year
is completed with the current calendar year and resolves to that month and
day whenever the completed date is a valid calendar date in the current year
(month 1..12, day 1..31, day within the month's length, accounting for leap
years); a phrase whose completed date is invalid in the current year — such
as "Feb 29" under a non-leap clock — is skipped by the `ValueError`
fallthrough instead of resolving.  The same current-year assumption, with
the same proviso, applies to bare `Mon DD` matches found by the
whole-document scan.  Proven here for every month abbreviation, every day
1..31, and every clock year `datetime` accepts. -/
theorem c7_valid_month_day_uses_current_year (y M D mi d : Nat)
    (hv : validDate y mi d = true) :
    extract_update_time_from_html
      ⟨["Updated " ++ monthAbbrevs.getD (mi - 1) "" ++ " " ++ toString d], [], ""⟩
      ⟨y, M, D⟩ = some (formatDate y mi d) ∧
    extract_update_time_from_html
      ⟨[], [], "released " ++ monthAbbrevs.getD (mi - 1) "" ++ " " ++ toString d⟩
      ⟨y, M, D⟩ = some (formatDate y mi d) := by
  have hb := hv
  simp only [validDate, Bool.and_eq_true, decide_eq_true_eq] at hb
  obtain ⟨⟨⟨⟨⟨hy1, hy2⟩, hm1⟩, hm2⟩, hd1⟩, hdm⟩ := hb
  have hd2 : d ≤ 31 := le_trans hdm (daysInMonth_le_31 y mi)
  interval_cases mi <;> interval_cases d <;>
    exact ⟨updatedPhraseResolves _ _ _ _ _ _ _ _ (by decide) hv,
           bareScanResolves _ _ _ _ _ _ (by decide) hv⟩

/-- Witness for the amended C7, at exactly the region the original claim
missed: day 31 ("Updated jan 31" at clock year 2025) and Feb 29 at leap
clock year 2024 via the whole-document scan. -/
theorem c7_valid_month_day_uses_current_year_witness :
    extract_update_time_from_html
      ⟨["Updated jan 31"], [], ""⟩ ⟨2025, 10, 12⟩ = some "2025-01-31" ∧
    extract_update_time_from_html
      ⟨[], [], "released feb 29"⟩ ⟨2024, 10, 12⟩ = some "2024-02-29" :=
  ⟨(c7_valid_month_day_uses_current_year 2025 10 12 1 31 (by decide)).1,
   (c7_valid_month_day_uses_current_year 2024 10 12 2 29 (by decide)).2⟩

/-- Index shift for task lists (used to relate `enumerate` offsets). -/
def shiftTask (p : Nat × String) : Nat × String := (p.1 + 1, p.2)

theorem models_to_update_from_succ (rows : List Row) (k : Nat) :
    models_to_update_from (k + 1) rows =
      (models_to_update_from k rows).map shiftTask := by
  induction rows generalizing k with
  | nil => rfl
  | cons r rs ih =>
    unfold models_to_update_from
    by_cases he : eligible r = true
    · simp [he, ih (k + 1), shiftTask]
    · simp [he, ih (k + 1)]

/-- The row produced by the merge for one input row: `update_time` is
overwritten exactly when the row was eligible and its identifier resolved. -/
def mergeRow (envOf : String → Env) (r : Row) : Row :=
  if eligible r then
    match retValue (fetch_model_update_time (envOf r.name)).outcome with
    | some t => { r with update_time := t }
    | none => r
  else r

theorem foldl_stepTask_shift (envOf : String → Env) (tasks : List (Nat × String))
    (r : Row) (rs : List Row) :
    (tasks.map shiftTask).foldl (stepTask envOf) (r :: rs) =
      r :: tasks.foldl (stepTask envOf) rs := by
  induction tasks generalizing rs with
  | nil => rfl
  | cons t ts ih =>
    have hstep : stepTask envOf (r :: rs) (shiftTask t) = r :: stepTask envOf rs t := by
      cases hv : retValue (fetch_model_update_time (envOf t.2)).outcome with
      | some v => simp [stepTask, shiftTask, hv, setUpdateTime]
      | none => simp [stepTask, shiftTask, hv]
    simp only [List.map_cons, List.foldl_cons, hstep]
    exact ih _

theorem models_to_update_from_cons (k : Nat) (r : Row) (rs : List Row) :
    models_to_update_from k (r :: rs) =
      if eligible r then (k, r.name) :: models_to_update_from (k + 1) rs
      else models_to_update_from (k + 1) rs := rfl

theorem update_csv_eq_map (envOf : String → Env) (rows : List Row) :
    update_csv_file envOf rows = rows.map (mergeRow envOf) := by
  induction rows with
  | nil => rfl
  | cons r rs ih =>
    show (models_to_update_from 0 (r :: rs)).foldl (stepTask envOf) (r :: rs) =
      mergeRow envOf r :: rs.map (mergeRow envOf)
    rw [← ih]
    show (models_to_update_from 0 (r :: rs)).foldl (stepTask envOf) (r :: rs) =
      mergeRow envOf r :: (models_to_update_from 0 rs).foldl (stepTask envOf) rs
    rw [models_to_update_from_cons]
    by_cases he : eligible r = true
    · rw [if_pos he, models_to_update_from_succ rs 0, List.foldl_cons]
      cases hv : retValue (fetch_model_update_time (envOf r.name)).outcome with
      | some v =>
        rw [show stepTask envOf (r :: rs) (0, r.name) =
              { r with update_time := v } :: rs from by
            simp [stepTask, hv, setUpdateTime]]
        rw [foldl_stepTask_shift]
        congr 1
        simp [mergeRow, he, hv]
      | none =>
        rw [show stepTask envOf (r :: rs) (0, r.name) = r :: rs from by
            simp [stepTask, hv]]
        rw [foldl_stepTask_shift]
        congr 1
        simp [mergeRow, he, hv]
    · rw [if_neg he, models_to_update_from_succ rs 0, foldl_stepTask_shift]
      congr 1
      simp [mergeRow, he]

theorem update_csv_get? (envOf : String → Env) (rows : List Row) (i : Nat) :
    (update_csv_file envOf rows).get? i = (rows.get? i).map (mergeRow envOf) := by
  rw [update_csv_eq_map]
  exact List.get?_map (mergeRow envOf) rows i

/-- C3: frame property of the dataset merge.  A row is rewritten only when it
was eligible (update-time `-` or empty) and its identifier resolved, and then
only its `update_time` column changes; a row whose original update-time is
non-empty and not the sentinel, or whose resolution returned no date
(Unresolved or Failed both return `None`), is left byte-identical. -/
theorem c3_merge_frame (envOf : String → Env) (rows : List Row) (i : Nat) (r : Row)
    (h : rows.get? i = some r) :
    ((eligible r = false ∨
        retValue (fetch_model_update_time (envOf r.name)).outcome = none) →
      (update_csv_file envOf rows).get? i = some r) ∧
    (∀ t, eligible r = true →
      retValue (fetch_model_update_time (envOf r.name)).outcome = some t →
      (update_csv_file envOf rows).get? i = some { r with update_time := t }) := by
  constructor
  · intro hcase
    rw [update_csv_get?, h, Option.map_some']
    rcases hcase with he | hv
    · simp [mergeRow, he]
    · by_cases he : eligible r = true
      · simp [mergeRow, he, hv]
      · simp [mergeRow, he]
  · intro t he hv
    rw [update_csv_get?, h, Option.map_some']
    simp [mergeRow, he, hv]

/-- Environment for the C3 witness: the identifier resolves via the API. -/
def envC3 : Env :=
  { api := .ok 200 (.obj (some "2024-01-25T10:00:00Z") none),
    doc := .netError, today := ⟨2025, 10, 12⟩ }

/-- Rows for the C3 witness: an eligible sentinel row and a row already
carrying a date. -/
def rowsC3 : List Row :=
  [{ name := "Qwen/Qwen2-7B", update_time := "-", rest := [("size", "7B")] },
   { name := "Qwen/Qwen2-72B", update_time := "2023-11-30", rest := [] }]

theorem c3_merge_frame_witness :
    (update_csv_file (fun _ => envC3) rowsC3).get? 0 =
      some { name := "Qwen/Qwen2-7B", update_time := "2024-01-25",
             rest := [("size", "7B")] } ∧
    (update_csv_file (fun _ => envC3) rowsC3).get? 1 =
      some { name := "Qwen/Qwen2-72B", update_time := "2023-11-30", rest := [] } :=
  ⟨(c3_merge_frame (fun _ => envC3) rowsC3 0
      { name := "Qwen/Qwen2-7B", update_time := "-", rest := [("size", "7B")] }
      rfl).2 "2024-01-25" rfl (by decide),
   (c3_merge_frame (fun _ => envC3) rowsC3 1
      { name := "Qwen/Qwen2-72B", update_time := "2023-11-30", rest := [] }
      rfl).1 (Or.inl (by decide))⟩

/-- C9: when the structured source yields Absence and the document fetch
raises a network error or timeout, the outcome is Failed(NetworkError), the
failure counter is incremented by exactly one (and the success counter not at
all), and the identifier's dataset row is left unchanged by the merge. -/
theorem c9_document_network_failure (env : Env)
    (hapi : extract_update_time_from_api env.api = none)
    (hdoc : env.doc = .netError) :
    (fetch_model_update_time env).outcome = .failed .networkError ∧
    (fetch_model_update_time env).failedDelta = 1 ∧
    (fetch_model_update_time env).updatedDelta = 0 ∧
    ∀ (envOf : String → Env) (rows : List Row) (i : Nat) (r : Row),
      rows.get? i = some r → envOf r.name = env →
      (update_csv_file envOf rows).get? i = some r := by
  have hfetch : fetch_model_update_time env =
      { outcome := .failed .networkError, effects := [.pacingDelay, .docFetch],
        updatedDelta := 0, failedDelta := 1 } := by
    unfold fetch_model_update_time
    rw [hapi, hdoc]
  refine ⟨by rw [hfetch], by rw [hfetch], by rw [hfetch], ?_⟩
  intro envOf rows i r hget henv
  rw [update_csv_get?, hget, Option.map_some']
  have hnone : retValue (fetch_model_update_time (envOf r.name)).outcome = none := by
    rw [henv, hfetch]
    rfl
  by_cases he : eligible r = true
  · simp [mergeRow, he, hnone]
  · simp [mergeRow, he]

/-- Environment for the C9 witness: API times out, document fetch fails. -/
def envC9 : Env := { api := .error, doc := .netError, today := ⟨2025, 10, 12⟩ }

/-- Row for the C9 witness. -/
def rowsC9 : List Row := [{ name := "Qwen/Qwen3-8B", update_time := "-", rest := [] }]

theorem c9_document_network_failure_witness :
    (fetch_model_update_time envC9).outcome = .failed .networkError ∧
    (fetch_model_update_time envC9).failedDelta = 1 ∧
    (fetch_model_update_time envC9).updatedDelta = 0 ∧
    (update_csv_file (fun _ => envC9) rowsC9).get? 0 =
      some { name := "Qwen/Qwen3-8B", update_time := "-", rest := [] } := by
  have h := c9_document_network_failure envC9 (by decide) rfl
  exact ⟨h.1, h.2.1, h.2.2.1,
         h.2.2.2 (fun _ => envC9) rowsC9 0
           { name := "Qwen/Qwen3-8B", update_time := "-", rest := [] } rfl rfl⟩

theorem models_to_update_from_mem (rows : List Row) :
    ∀ (k : Nat) (p : Nat × String), p ∈ models_to_update_from k rows →
    ∃ i r, rows.get? i = some r ∧ eligible r = true ∧ p = (k + i, r.name) := by
  induction rows with
  | nil =>
    intro k p h
    cases h
  | cons r rs ih =>
    intro k p h
    rw [models_to_update_from_cons] at h
    by_cases he : eligible r = true
    · rw [if_pos he] at h
      rcases List.mem_cons.mp h with h0 | h1
      · exact ⟨0, r, rfl, he, h0⟩
      · obtain ⟨i, r', hg, he', hp⟩ := ih (k + 1) p h1
        refine ⟨i + 1, r', hg, he', ?_⟩
        rw [hp]
        have harith : k + 1 + i = k + (i + 1) := by omega
        rw [harith]
    · rw [if_neg he] at h
      obtain ⟨i, r', hg, he', hp⟩ := ih (k + 1) p h
      refine ⟨i + 1, r', hg, he', ?_⟩
      rw [hp]
      have harith : k + 1 + i = k + (i + 1) := by omega
      rw [harith]

theorem models_to_update_from_mem_of (rows : List Row) :
    ∀ (k i : Nat) (r : Row), rows.get? i = some r → eligible r = true →
    (k + i, r.name) ∈ models_to_update_from k rows := by
  induction rows with
  | nil =>
    intro k i r h _
    cases i <;> cases h
  | cons r0 rs ih =>
    intro k i r h he
    cases i with
    | zero =>
      rw [List.get?_cons_zero] at h
      injection h with h'
      subst h'
      rw [models_to_update_from_cons, if_pos he]
      exact List.mem_cons_self _ _
    | succ j =>
      rw [List.get?_cons_succ] at h
      have harith : k + (j + 1) = (k + 1) + j := by omega
      rw [models_to_update_from_cons, harith]
      by_cases he0 : eligible r0 = true
      · rw [if_pos he0]
        exact List.mem_cons_of_mem _ (ih (k + 1) j r h he)
      · rw [if_neg he0]
        exact ih (k + 1) j r h he

theorem models_to_update_from_fst_nodup (rows : List Row) :
    ∀ k, ((models_to_update_from k rows).map Prod.fst).Nodup := by
  induction rows with
  | nil =>
    intro k
    exact List.nodup_nil
  | cons r rs ih =>
    intro k
    rw [models_to_update_from_cons]
    by_cases he : eligible r = true
    · rw [if_pos he, List.map_cons]
      refine List.nodup_cons.mpr ⟨?_, ih (k + 1)⟩
      intro hmem
      obtain ⟨p, hp, hfst⟩ := List.mem_map.mp hmem
      obtain ⟨i, r', _, _, hpe⟩ := models_to_update_from_mem rs (k + 1) p hp
      rw [hpe] at hfst
      simp at hfst
      omega
    · rw [if_neg he]
      exact ih (k + 1)

theorem submittedNames_from_sublist (rows : List Row) :
    ∀ k, List.Sublist ((models_to_update_from k rows).map Prod.snd)
      (rows.map Row.name) := by
  induction rows with
  | nil =>
    intro k
    exact List.Sublist.refl _
  | cons r rs ih =>
    intro k
    rw [models_to_update_from_cons]
    by_cases he : eligible r = true
    · rw [if_pos he, List.map_cons, List.map_cons]
      exact List.Sublist.cons₂ _ (ih (k + 1))
    · rw [if_neg he, List.map_cons]
      exact List.Sublist.cons _ (ih (k + 1))

/-- C2 (amended): one task per eligible row, not per identifier.  The task
list pairs each eligible row's index with its name, each row index is
submitted at most once (so each eligible row receives exactly one outcome and
no row is processed twice), a pair is submitted exactly for the eligible
rows, and when the input rows' names are pairwise distinct each submitted
identifier appears exactly once.  An identifier occurring in several eligible
rows is submitted once per such row. -/
theorem c2_one_task_per_eligible_row (rows : List Row) :
    ((models_to_update rows).map Prod.fst).Nodup ∧
    (∀ i r, rows.get? i = some r →
      (eligible r = true ↔ (i, r.name) ∈ models_to_update rows)) ∧
    ((rows.map Row.name).Nodup → (submittedNames rows).Nodup) := by
  refine ⟨models_to_update_from_fst_nodup rows 0, ?_, ?_⟩
  · intro i r hget
    constructor
    · intro he
      have hmem := models_to_update_from_mem_of rows 0 i r hget he
      have h0 : (0 : Nat) + i = i := Nat.zero_add i
      rw [h0] at hmem
      exact hmem
    · intro hmem
      obtain ⟨j, r', hg', he', hpe⟩ := models_to_update_from_mem rows 0 _ hmem
      have h1 : i = j := by
        have := congrArg Prod.fst hpe
        simpa using this
      rw [← h1] at hg'
      rw [hget] at hg'
      injection hg' with h2
      rw [h2]
      exact he'
  · intro hnd
    exact hnd.sublist (submittedNames_from_sublist rows 0)

/-- Input with a duplicated identifier in two eligible rows. -/
def rowsDup : List Row :=
  [{ name := "Qwen/Qwen2-7B", update_time := "-", rest := [] },
   { name := "Qwen/Qwen2-7B", update_time := "", rest := [] }]

/-- C2 counterexample: with a batch holding the same identifier in two
eligible rows, that identifier is submitted and processed twice — the claim
"no identifier is processed twice" fails on the code as written, which keys
tasks by row, not by identifier. -/
theorem c2_duplicate_identifier_processed_twice :
    (submittedNames rowsDup).count "Qwen/Qwen2-7B" = 2 ∧
    ¬ (submittedNames rowsDup).Nodup := by
  constructor
  · decide
  · decide

/-- Rows for the C2 witness: distinct names, two eligible rows. -/
def rowsC2W : List Row :=
  [{ name := "Qwen/Qwen2-7B", update_time := "-", rest := [] },
   { name := "Qwen/Qwen2-72B", update_time := "2024-01-01", rest := [] },
   { name := "Qwen/Qwen3-8B", update_time := "", rest := [] }]

theorem c2_one_task_per_eligible_row_witness :
    ((models_to_update rowsC2W).map Prod.fst).Nodup ∧
    (0, "Qwen/Qwen2-7B") ∈ models_to_update rowsC2W ∧
    (submittedNames rowsC2W).Nodup := by
  have h := c2_one_task_per_eligible_row rowsC2W
  exact ⟨h.1,
         (h.2.1 0 { name := "Qwen/Qwen2-7B", update_time := "-", rest := [] }
           rfl).mp (by decide),
         h.2.2 (by decide)⟩
